import Mathlib

/-!
Shallow embedding of the Riztoo order checkout and vendor-payout pipeline.

The definitions below are translated from the repository source:
the orders route (create-order, demo-checkout, verify-payment,
processVendorPayouts) as listed in src/FINAL_SUMMARY.md, the payments
route src/server/routes/payments.js, the reviews route
(src/unnamed/part_000), the cache layer (src/unnamed/part_003), the
vendor product update route src/server/routes/vendors.js, and the
mongoose models Order.js, Review.js and the payment schema
(src/unnamed/part_008).

MongoDB ObjectIds are modelled as natural numbers, JS numbers holding
money as rationals, stock (which $inc can drive negative) as integers.
Date.now() values and freshly generated document ids are passed in as
explicit parameters.  The HMAC-SHA256 primitive from node crypto is an
external collaborator and is modelled as an abstract function carried
by the environment.
-/

namespace Riztoo

/-- Order lifecycle statuses, from the enum in server/models/Order.js. -/
inductive OrderStatus where
  | pending
  | paid
  | shipped
  | delivered
  | cancelled
  deriving DecidableEq, Repr

/-- One immutable order line snapshot, from the items subdocument of
orderSchema in server/models/Order.js and the orderItems built by the
create-order handler. -/
structure OrderItem where
  vendorProductId : Nat
  productId : Nat
  vendorId : Nat
  price : ℚ
  qty : Nat
  productName : String
  storeName : String
  deriving DecidableEq, Repr

/-- A vendor listing (VendorProduct document, src/unnamed/part_002):
references a catalog product and a vendor, carries price and stock. -/
structure VendorProduct where
  id : Nat
  productId : Nat
  vendorId : Nat
  productName : String
  storeName : String
  price : ℚ
  stock : ℤ
  deriving DecidableEq, Repr

/-- An order document (server/models/Order.js). -/
structure Order where
  id : Nat
  userId : Nat
  items : List OrderItem
  totalAmount : ℚ
  status : OrderStatus
  paymentType : String
  razorpayOrderId : String
  razorpayPaymentId : Option String
  deriving DecidableEq, Repr

/-- One entry of the vendorPayouts subdocument list of the payment
schema (src/unnamed/part_008, lines 43-67). -/
structure VendorPayout where
  vendorId : Nat
  amount : ℚ
  commission : ℚ
  netAmount : ℚ
  status : String
  deriving DecidableEq, Repr

/-- A Payment document.  Fields cover what the payment schema
(src/unnamed/part_008) declares plus the extra fields the orders-route
processVendorPayouts passes to the Payment constructor (vendorId,
top-level commission, type). -/
structure Payment where
  id : Nat
  orderId : Nat
  userId : Option Nat
  vendorId : Option Nat
  razorpayOrderId : Option String
  razorpayPaymentId : Option String
  razorpaySignature : Option String
  amount : ℚ
  commission : Option ℚ
  status : String
  type : Option String
  vendorPayouts : List VendorPayout
  deriving DecidableEq, Repr

/-- A review document (server/models/Review.js). -/
structure Review where
  id : Nat
  userId : Nat
  orderId : Nat
  productId : Nat
  vendorId : Nat
  vendorProductId : Nat
  rating : ℤ
  comment : String
  deriving DecidableEq, Repr

/-- A vendor profile document (server/models/Vendor.js), reduced to the
fields the embedded routes read. -/
structure Vendor where
  id : Nat
  userId : Nat
  storeName : String
  deriving DecidableEq, Repr

/-- A session cart line, with the shape pushed by POST /cart/add
(server/routes/cart.js). -/
structure CartItem where
  vendorProductId : Nat
  productId : Nat
  vendorId : Nat
  qty : Nat
  price : ℚ
  productName : String
  storeName : String
  deriving DecidableEq, Repr

/-- The four NodeCache instances of src/unnamed/part_003, modelled by
the key sets they currently hold (the claims under study only concern
presence or absence of entries). -/
structure Caches where
  short : List String
  medium : List String
  long : List String
  session : List String
  deriving DecidableEq, Repr

/-- The document store: one collection per mongoose model used by the
embedded routes. -/
structure DB where
  vendorProducts : List VendorProduct
  orders : List Order
  payments : List Payment
  reviews : List Review
  vendors : List Vendor
  deriving DecidableEq, Repr

/-- Full server-side state seen by one worker: database plus the
process-local response caches. -/
structure St where
  db : DB
  caches : Caches
  deriving DecidableEq, Repr

/-- An authenticated session: user id and the session cart. -/
structure Session where
  userId : Nat
  cart : List CartItem
  deriving DecidableEq, Repr

/-- An HTTP handler outcome: res.json on the success path, or
res.status(code).json({error}) on the failure path. -/
inductive Resp where
  | ok (body : String)
  | err (code : Nat) (error : String)
  deriving DecidableEq, Repr

/-- Environment: the razorpay shared secret and the HMAC-SHA256 hex
primitive (node crypto createHmac ... digest of hex), treated as an
abstract external function key → message → digest. -/
structure Env where
  razorpayKeySecret : String
  hmacSha256Hex : String → String → String

/-- invalidateCache.products from src/unnamed/part_003: flushes the
whole medium cache. -/
def invalidateProductsCache (c : Caches) : Caches :=
  { c with medium := [] }

/-- invalidateCache.reviews from src/unnamed/part_003: deletes every
short-cache key starting with the reviews prefix for the product. -/
def invalidateReviewsCache (productId : Nat) (c : Caches) : Caches :=
  { c with short :=
      c.short.filter (fun k => !(k.startsWith ("reviews_" ++ toString productId))) }

/-- Sum of price times quantity over a list of order lines, the
pattern items.reduce((sum, item) => sum + item.price * item.qty, 0)
used throughout the pipeline. -/
def lineTotal (items : List OrderItem) : ℚ :=
  (items.map (fun i => i.price * (i.qty : ℚ))).sum

/-- The stock-and-price validation loop of POST /orders/create-order
(src/FINAL_SUMMARY.md): for every cart line, re-fetch the listing,
fail with 400 if it is gone or the requested quantity exceeds current
stock, otherwise snapshot the line and accumulate the total. -/
def validateCart (vps : List VendorProduct) :
    List CartItem → Except Resp (List OrderItem × ℚ)
  | [] => .ok ([], 0)
  | item :: rest =>
    match vps.find? (fun vp => decide (vp.id = item.vendorProductId)) with
    | none => .error (.err 400 ("Product " ++ item.productName ++ " not found"))
    | some vp =>
      if vp.stock < (item.qty : ℤ) then
        .error (.err 400 ("Insufficient stock for " ++ item.productName ++
          ". Available: " ++ toString vp.stock))
      else
        match validateCart vps rest with
        | .error e => .error e
        | .ok (items, total) =>
          .ok ({ vendorProductId := vp.id
                 productId := vp.productId
                 vendorId := vp.vendorId
                 price := vp.price
                 qty := item.qty
                 productName := vp.productName
                 storeName := vp.storeName } :: items,
               vp.price * (item.qty : ℚ) + total)

/-- POST /orders/create-order (src/FINAL_SUMMARY.md): reject an empty
cart, re-validate every line against current listings, snapshot the
items with the current listing price, then persist a pending order.
gatewayOrderId is some id when the razorpay order creation succeeded
and none when the handler fell back to demo mode; stock is not
touched here. -/
def createOrder (freshOrderId now : Nat) (gatewayOrderId : Option String)
    (st : St) (sess : Session) : Resp × St :=
  if sess.cart.isEmpty then
    (.err 400 "Cart is empty", st)
  else
    match validateCart st.db.vendorProducts sess.cart with
    | .error e => (e, st)
    | .ok (orderItems, totalAmount) =>
      let paymentType := match gatewayOrderId with
        | some _ => "razorpay"
        | none => "demo"
      let order : Order :=
        { id := freshOrderId
          userId := sess.userId
          items := orderItems
          totalAmount := totalAmount
          status := .pending
          paymentType := paymentType
          razorpayOrderId := gatewayOrderId.getD ("demo_" ++ toString now)
          razorpayPaymentId := none }
      (.ok ("orderId " ++ toString freshOrderId),
       { st with db := { st.db with orders := st.db.orders ++ [order] } })

/-- One updateOne of the bulkWrite the confirmation handlers issue:
filter on _id = item.vendorProductId, update $inc stock by -qty. -/
def decStock (vps : List VendorProduct) (item : OrderItem) : List VendorProduct :=
  vps.map (fun vp =>
    if vp.id = item.vendorProductId then
      { vp with stock := vp.stock - (item.qty : ℤ) }
    else vp)

/-- The full VendorProduct.bulkWrite(stockUpdates) of demo-checkout
and verify-payment: one decrement per order line, applied in order. -/
def applyStockUpdates (vps : List VendorProduct) (items : List OrderItem) :
    List VendorProduct :=
  items.foldl decStock vps

/-- One step of the vendorGroups grouping loop of processVendorPayouts
(src/FINAL_SUMMARY.md): push the item onto its vendor group, creating
the group on first occurrence. -/
def groupStep (groups : List (Nat × List OrderItem)) (item : OrderItem) :
    List (Nat × List OrderItem) :=
  if groups.any (fun g => decide (g.1 = item.vendorId)) then
    groups.map (fun g =>
      if g.1 = item.vendorId then (g.1, g.2 ++ [item]) else g)
  else groups ++ [(item.vendorId, [item])]

/-- The vendorGroups object built by processVendorPayouts
(src/FINAL_SUMMARY.md): items grouped by vendor id, groups in first
occurrence order, each group keeping its lines in order. -/
def groupByVendor (items : List OrderItem) : List (Nat × List OrderItem) :=
  items.foldl groupStep []

/-- One per-vendor payout document created by processVendorPayouts
(src/FINAL_SUMMARY.md): a standalone Payment with amount the vendor
earning (gross minus 1 percent commission), commission, status
pending_payout and type vendor_payout. -/
def vendorPayoutDoc (docId orderId vendorId : Nat) (items : List OrderItem) :
    Payment :=
  let vendorTotal := lineTotal items
  let commission := vendorTotal * (1 / 100)
  let vendorEarning := vendorTotal - commission
  { id := docId
    orderId := orderId
    userId := none
    vendorId := some vendorId
    razorpayOrderId := none
    razorpayPaymentId := none
    razorpaySignature := none
    amount := vendorEarning
    commission := some commission
    status := "pending_payout"
    type := some "vendor_payout"
    vendorPayouts := [] }

/-- The list of payout documents processVendorPayouts saves for one
order, in vendor group order; fresh ids start at payoutBase. -/
def payoutDocsFor (payoutBase : Nat) (order : Order) : List Payment :=
  (groupByVendor order.items).enum.map
    (fun g => vendorPayoutDoc (payoutBase + g.1) order.id g.2.1 g.2.2)

/-- The status enum of the payment schema (src/unnamed/part_008,
lines 32-36). -/
def paymentStatusEnum : List String :=
  ["created", "attempted", "paid", "failed", "cancelled"]

/-- Mongoose validation of a Payment document against the payment
schema (src/unnamed/part_008): userId and razorpayOrderId are
required paths and status must be one of the enum values.  orderId
and amount are always present in the embedding, and values passed for
names that are not schema paths (vendorId, top-level commission,
type) are silently dropped by strict mode rather than rejected, so
they impose no condition here. -/
def paymentValid (p : Payment) : Bool :=
  p.userId.isSome && p.razorpayOrderId.isSome &&
    paymentStatusEnum.contains p.status

/-- A Payment document save(): mongoose runs the schema validators
and persists the document only when they pass; otherwise save()
throws a ValidationError. -/
def savePayment (payments : List Payment) (p : Payment) :
    Except String (List Payment) :=
  if paymentValid p then .ok (payments ++ [p])
  else .error "ValidationError"

/-- The save loop of processVendorPayouts (src/FINAL_SUMMARY.md):
payout documents are saved one at a time inside a try block; the
first save() that throws is caught by the function's own catch and
aborts the loop, keeping only what was persisted before it. -/
def savePayoutDocs : List Payment → List Payment → List Payment
  | payments, [] => payments
  | payments, d :: ds =>
    match savePayment payments d with
    | .error _ => payments
    | .ok payments2 => savePayoutDocs payments2 ds

/-- processVendorPayouts of the orders route (src/FINAL_SUMMARY.md):
groups the order items by vendor and attempts to save one standalone
Payment document per vendor group.  Every such document lacks the
required userId and razorpayOrderId paths and carries status
pending_payout, outside the schema enum, so each save() throws a
ValidationError which the function catches and swallows — the
payments collection is left unchanged. -/
def processVendorPayouts (payoutBase : Nat) (order : Order) (db : DB) : DB :=
  { db with payments := savePayoutDocs db.payments (payoutDocsFor payoutBase order) }

/-- POST /orders/demo-checkout (src/FINAL_SUMMARY.md): find the order,
check the caller owns it, decrement stock for every line, mark the
order paid with a demo payment id, save the per-vendor payout
documents and clear the session cart.  The handler performs no check
of the current order status. -/
def demoCheckout (now payoutBase orderId : Nat) (st : St) (sess : Session) :
    Resp × St × Session :=
  match st.db.orders.find? (fun o => decide (o.id = orderId)) with
  | none => (.err 404 "Order not found", st, sess)
  | some order =>
    if order.userId ≠ sess.userId then
      (.err 403 "Unauthorized", st, sess)
    else
      let vps := applyStockUpdates st.db.vendorProducts order.items
      let updated := { order with
        status := .paid
        razorpayPaymentId := some ("demo_payment_" ++ toString now) }
      let orders := st.db.orders.map (fun o => if o.id = orderId then updated else o)
      let db := processVendorPayouts payoutBase updated
        { st.db with vendorProducts := vps, orders := orders }
      (.ok "Demo payment successful! Order completed.",
       { st with db := db }, { sess with cart := [] })

/-- POST /orders/verify-payment (src/FINAL_SUMMARY.md): recompute the
HMAC-SHA256 hex digest of razorpay order id | payment id under the
shared secret and reject on mismatch; otherwise find the order (with
no ownership check and no status check), decrement stock for every
line and mark the order paid — both of these persist — then attempt
to save a Payment record with status completed.  completed is not in
the payment schema status enum, so this save() always throws; the
catch-all returns 500 and the payout processing, cart clearing and
success response after the save are never reached. -/
def ordersVerifyPayment (env : Env) (freshPaymentId payoutBase : Nat)
    (rzpOrderId rzpPaymentId rzpSignature : String) (orderId : Nat)
    (st : St) (sess : Session) : Resp × St × Session :=
  let expected := env.hmacSha256Hex env.razorpayKeySecret
    (rzpOrderId ++ "|" ++ rzpPaymentId)
  if expected ≠ rzpSignature then
    (.err 400 "Invalid payment signature", st, sess)
  else
    match st.db.orders.find? (fun o => decide (o.id = orderId)) with
    | none => (.err 404 "Order not found", st, sess)
    | some order =>
      let vps := applyStockUpdates st.db.vendorProducts order.items
      let updated := { order with
        status := .paid
        razorpayPaymentId := some rzpPaymentId }
      let orders := st.db.orders.map (fun o => if o.id = orderId then updated else o)
      let payment : Payment :=
        { id := freshPaymentId
          orderId := order.id
          userId := some order.userId
          vendorId := none
          razorpayOrderId := some rzpOrderId
          razorpayPaymentId := some rzpPaymentId
          razorpaySignature := none
          amount := order.totalAmount
          commission := none
          status := "completed"
          type := none
          vendorPayouts := [] }
      let db1 := { st.db with vendorProducts := vps, orders := orders }
      match savePayment db1.payments payment with
      | .error _ => (.err 500 "Payment verification failed", { st with db := db1 }, sess)
      | .ok payments2 =>
        let db := processVendorPayouts payoutBase updated
          { db1 with payments := payments2 }
        (.ok "Payment verified and order completed",
         { st with db := db }, { sess with cart := [] })

/-- One step of the vendorGroups accumulation of POST /payments/verify
(server/routes/payments.js, lines 96-106): add the line amount to the
running total of its vendor group, creating the group on first
occurrence. -/
def groupTotalsStep (groups : List (Nat × ℚ)) (item : OrderItem) :
    List (Nat × ℚ) :=
  if groups.any (fun g => decide (g.1 = item.vendorId)) then
    groups.map (fun g =>
      if g.1 = item.vendorId then (g.1, g.2 + item.price * (item.qty : ℚ)) else g)
  else groups ++ [(item.vendorId, item.price * (item.qty : ℚ))]

/-- The vendorGroups object built by POST /payments/verify
(server/routes/payments.js, lines 96-106): per-vendor running totals
of price times qty, groups in first occurrence order. -/
def groupTotalsByVendor (items : List OrderItem) : List (Nat × ℚ) :=
  items.foldl groupTotalsStep []

/-- The vendorPayouts list POST /payments/verify builds
(server/routes/payments.js, lines 108-121): for each vendor group,
commission is gross times 1.0 over 100, net is gross minus commission,
status starts as pending. -/
def computeVendorPayouts (items : List OrderItem) : List VendorPayout :=
  (groupTotalsByVendor items).map (fun g =>
    { vendorId := g.1
      amount := g.2
      commission := g.2 * 1 / 100
      netAmount := g.2 - g.2 * 1 / 100
      status := "pending" })

/-- POST /payments/verify (server/routes/payments.js): check the
signature, look up the Payment record by razorpay order id, load its
order, attach the computed vendorPayouts to the Payment, mark the
Payment paid (its save() re-runs the schema validators; a record
missing a required path would throw and surface as the catch-all 500
before the order is touched) and mark the Order paid.  The handler
also assigns order.paymentId, but the order schema has no such path,
so strict mode drops it from the persisted document; a missing order
would make the handler throw on order.items and surface as the
catch-all 500. -/
def paymentsVerify (env : Env)
    (rzpOrderId rzpPaymentId rzpSignature : String) (st : St) :
    Resp × St :=
  let expected := env.hmacSha256Hex env.razorpayKeySecret
    (rzpOrderId ++ "|" ++ rzpPaymentId)
  if expected ≠ rzpSignature then
    (.err 400 "Invalid payment signature", st)
  else
    match st.db.payments.find? (fun p => p.razorpayOrderId == some rzpOrderId) with
    | none => (.err 404 "Payment record not found", st)
    | some payment =>
      match st.db.orders.find? (fun o => decide (o.id = payment.orderId)) with
      | none => (.err 500 "Payment verification failed", st)
      | some order =>
        let payment1 := { payment with
          razorpayPaymentId := some rzpPaymentId
          razorpaySignature := some rzpSignature
          status := "paid"
          vendorPayouts := computeVendorPayouts order.items }
        if paymentValid payment1 then
          let order1 := { order with status := .paid }
          let db := { st.db with
            payments := st.db.payments.map
              (fun p => if p.id = payment.id then payment1 else p)
            orders := st.db.orders.map
              (fun o => if o.id = order.id then order1 else o) }
          (.ok "Payment verified successfully", { st with db := db })
        else (.err 500 "Payment verification failed", st)

/-- The review.save() step of the reviews route, together with the
unique index of server/models/Review.js line 66: the insert fails
with a duplicate key error when a stored review already shares
(userId, orderId, productId) with the new one. -/
def saveReview (reviews : List Review) (r : Review) :
    Except String (List Review) :=
  if reviews.any (fun r0 =>
      decide (r0.userId = r.userId) && decide (r0.orderId = r.orderId) &&
      decide (r0.productId = r.productId)) then
    .error "E11000 duplicate key error"
  else
    .ok (reviews ++ [r])

/-- POST /reviews (src/unnamed/part_000): validate the rating, require
a paid order owned by the caller, require the (product, vendor) pair
to be one of the order lines, reject when a review with the same
(user, order, product, vendor) already exists, then save the review
(the unique index can still reject the insert; that error is caught
by the handler and reported as 500) and invalidate the review
cache for the product. -/
def createReview (freshReviewId orderId productId vendorId : Nat)
    (rating : ℤ) (comment : String) (st : St) (sess : Session) :
    Resp × St :=
  if rating < 1 ∨ 5 < rating then
    (.err 400 "Validation failed", st)
  else
    match st.db.orders.find? (fun o =>
        decide (o.id = orderId) && decide (o.userId = sess.userId) &&
        decide (o.status = OrderStatus.paid)) with
    | none => (.err 400 "Order not found or not paid", st)
    | some order =>
      match order.items.find? (fun it =>
          decide (it.productId = productId) && decide (it.vendorId = vendorId)) with
      | none => (.err 400 "Product not found in this order", st)
      | some orderItem =>
        match st.db.reviews.find? (fun r =>
            decide (r.userId = sess.userId) && decide (r.orderId = orderId) &&
            decide (r.productId = productId) && decide (r.vendorId = vendorId)) with
        | some _ => (.err 400 "Review already exists for this product", st)
        | none =>
          let review : Review :=
            { id := freshReviewId
              userId := sess.userId
              orderId := orderId
              productId := productId
              vendorId := vendorId
              vendorProductId := orderItem.vendorProductId
              rating := rating
              comment := comment }
          match saveReview st.db.reviews review with
          | .error _ => (.err 500 "Failed to create review", st)
          | .ok reviews =>
            (.ok "Review created successfully",
             { st with
                 db := { st.db with reviews := reviews }
                 caches := invalidateReviewsCache productId st.caches })

/-- PUT /vendors/products/:id (server/routes/vendors.js, lines
178-216): resolve the caller vendor profile (a missing profile makes
the handler throw on vendor._id, surfacing as the catch-all 500),
find the product owned by that vendor, and apply the optional price
and stock updates.  No other collection is touched. -/
def updateVendorProduct (productId : Nat) (price : Option ℚ)
    (stock : Option ℤ) (st : St) (sess : Session) : Resp × St :=
  match st.db.vendors.find? (fun v => decide (v.userId = sess.userId)) with
  | none => (.err 500 "Failed to update product", st)
  | some vendor =>
    match st.db.vendorProducts.find? (fun vp =>
        decide (vp.id = productId) && decide (vp.vendorId = vendor.id)) with
    | none => (.err 404 "Product not found", st)
    | some _ =>
      let upd := fun (vp : VendorProduct) =>
        { vp with
            price := price.getD vp.price
            stock := stock.getD vp.stock }
      (.ok "Product updated successfully",
       { st with db := { st.db with
           vendorProducts := st.db.vendorProducts.map
             (fun vp => if vp.id = productId then upd vp else vp) } })

/-- The paid-or-later region of the order state machine named by the
spec (section 4.3): paid, shipped or delivered. -/
def paidOrLater (s : OrderStatus) : Prop :=
  s = .paid ∨ s = .shipped ∨ s = .delivered

instance (s : OrderStatus) : Decidable (paidOrLater s) := by
  unfold paidOrLater; infer_instance

/-! Statement vocabulary: observations on states used to phrase the
claims, and proof infrastructure. -/

/-- The stock the store currently records for a listing id, none when
the listing does not exist. -/
def stockOf (vps : List VendorProduct) (id : Nat) : Option ℤ :=
  (vps.find? (fun vp => decide (vp.id = id))).map VendorProduct.stock

/-- Total quantity the given order lines request of one listing id. -/
def itemsDec (items : List OrderItem) (id : Nat) : ℤ :=
  ((items.filter (fun it => decide (it.vendorProductId = id))).map
    (fun it => (it.qty : ℤ))).sum

/-- A cart line the checkout re-validation must reject: its listing is
gone from the store, or its requested quantity exceeds current stock. -/
def cartLineUnavailable (vps : List VendorProduct) (c : CartItem) : Prop :=
  match vps.find? (fun vp => decide (vp.id = c.vendorProductId)) with
  | none => True
  | some vp => vp.stock < (c.qty : ℤ)

/-- No two stored reviews share the (userId, orderId, productId) key
of the unique index of server/models/Review.js. -/
def uniqueReviewKeys (reviews : List Review) : Prop :=
  reviews.Pairwise (fun a b =>
    ¬(a.userId = b.userId ∧ a.orderId = b.orderId ∧ a.productId = b.productId))

/-- Sum of the per-vendor values of a vendor-keyed association list. -/
def sumVals (l : List (Nat × ℚ)) : ℚ :=
  (l.map Prod.snd).sum

/-- The vendor keys of a vendor-keyed association list. -/
def keysOf {α : Type} (l : List (Nat × α)) : List Nat :=
  l.map Prod.fst

/-! General helper lemmas. -/

theorem anyMapPoly {α β : Type} (f : α → β) (p : β → Bool) :
    ∀ l : List α, (l.map f).any p = l.any (fun a => p (f a))
  | [] => rfl
  | a :: l => by simp [List.any_cons, anyMapPoly f p l]

theorem lineTotal_nil : lineTotal [] = 0 := rfl

theorem lineTotal_cons (i : OrderItem) (l : List OrderItem) :
    lineTotal (i :: l) = i.price * (i.qty : ℚ) + lineTotal l := by
  simp [lineTotal]

theorem lineTotal_append_one (l : List OrderItem) (i : OrderItem) :
    lineTotal (l ++ [i]) = lineTotal l + i.price * (i.qty : ℚ) := by
  simp [lineTotal]

/-- The running total computed by the create-order validation loop is
the line total of the snapshot it builds. -/
theorem validateCart_total (vps : List VendorProduct) :
    ∀ (cart : List CartItem) (items : List OrderItem) (total : ℚ),
      validateCart vps cart = .ok (items, total) → total = lineTotal items
  | [], items, total, h => by
    simp only [validateCart] at h
    cases h
    simp [lineTotal]
  | c :: rest, items, total, h => by
    simp only [validateCart] at h
    split at h
    · exact absurd h (by simp)
    · rename_i vp hf
      split at h
      · exact absurd h (by simp)
      · split at h
        · exact absurd h (by simp)
        · rename_i items0 total0 hr
          have ih := validateCart_total vps rest items0 total0 hr
          simp only [Except.ok.injEq, Prod.mk.injEq] at h
          obtain ⟨hi, ht⟩ := h
          subst hi
          rw [← ht, lineTotal_cons, ih]

/-- If some cart line is unavailable, the create-order validation loop
fails with a 400 error. -/
theorem validateCart_error (vps : List VendorProduct) :
    ∀ cart : List CartItem, (∃ c ∈ cart, cartLineUnavailable vps c) →
      ∃ m, validateCart vps cart = .error (.err 400 m)
  | [], h => absurd h (by simp)
  | c :: rest, h => by
    cases hf : vps.find? (fun vp => decide (vp.id = c.vendorProductId)) with
    | none =>
      refine ⟨"Product " ++ c.productName ++ " not found", ?_⟩
      simp only [validateCart, hf]
    | some vp =>
      by_cases hs : vp.stock < (c.qty : ℤ)
      · refine ⟨"Insufficient stock for " ++ c.productName ++
          ". Available: " ++ toString vp.stock, ?_⟩
        simp only [validateCart, hf, if_pos hs]
      · have hrest : ∃ c2 ∈ rest, cartLineUnavailable vps c2 := by
          obtain ⟨c2, hc2, hbad⟩ := h
          cases hc2 with
          | head =>
            simp only [cartLineUnavailable, hf] at hbad
            exact absurd hbad hs
          | tail _ h2 => exact ⟨c2, h2, hbad⟩
        obtain ⟨m, hm⟩ := validateCart_error vps rest hrest
        refine ⟨m, ?_⟩
        simp only [validateCart, hf, if_neg hs, hm]

/-! Fixtures used by witnesses and counterexamples. -/

/-- An empty cache state. -/
def emptyCaches : Caches :=
  { short := [], medium := [], long := [], session := [] }

/-- A cart line asking for 2 units of listing 1. -/
def cartItemA : CartItem :=
  { vendorProductId := 1, productId := 11, vendorId := 21, qty := 2,
    price := 100, productName := "A", storeName := "S" }

/-- A state whose store has no listings at all. -/
def stNoListing : St :=
  { db := { vendorProducts := [], orders := [], payments := [],
            reviews := [], vendors := [] }
    caches := emptyCaches }

/-- A session for user 7 whose cart holds cartItemA. -/
def sessCartA : Session :=
  { userId := 7, cart := [cartItemA] }

/-- A test environment with a concrete stand-in for the HMAC
primitive. -/
def sampleEnv : Env :=
  { razorpayKeySecret := "secret"
    hmacSha256Hex := fun key msg => key ++ ":" ++ msg }

/-- Listing 1 of vendor 21 with stock 5 at price 100. -/
def listingA : VendorProduct :=
  { id := 1, productId := 11, vendorId := 21, productName := "A",
    storeName := "S", price := 100, stock := 5 }

/-- A pending order of user 7 for 2 units of listing 1. -/
def orderA : Order :=
  { id := 10, userId := 7
    items := [{ vendorProductId := 1, productId := 11, vendorId := 21,
                price := 100, qty := 2, productName := "A", storeName := "S" }]
    totalAmount := 200, status := .pending, paymentType := "demo"
    razorpayOrderId := "demo_1000", razorpayPaymentId := none }

/-- A state holding listingA, the pending orderA, and one cached
product read response. -/
def stCached : St :=
  { db := { vendorProducts := [listingA], orders := [orderA], payments := [],
            reviews := [], vendors := [] }
    caches := { short := [], medium := ["products_1_10_all_none"],
                long := [], session := [] } }

/-- A session for user 7 with an empty cart. -/
def sessU7 : Session := { userId := 7, cart := [] }

/-! Claim theorems. -/

/-- Claim C7: a cart containing a line whose requested quantity
exceeds the current stock of its listing, or whose listing no longer
exists, makes create-order fail with a descriptive 400 error and
leave the state — in particular the order store — unchanged, so no
order is persisted. -/
theorem create_order_rejects_unavailable_line
    (freshOrderId now : Nat) (gatewayOrderId : Option String)
    (st : St) (sess : Session) (c : CartItem)
    (hc : c ∈ sess.cart)
    (hbad : cartLineUnavailable st.db.vendorProducts c) :
    ∃ m, createOrder freshOrderId now gatewayOrderId st sess = (.err 400 m, st) := by
  have hne : sess.cart.isEmpty = false := by
    cases hcart : sess.cart with
    | nil => rw [hcart] at hc; exact absurd hc (by simp)
    | cons a l => rfl
  obtain ⟨m, hm⟩ := validateCart_error st.db.vendorProducts sess.cart ⟨c, hc, hbad⟩
  refine ⟨m, ?_⟩
  simp [createOrder, hne, hm]

/-- Witness for C7 at a concrete input: a cart line for a listing
that is absent from the store. -/
theorem create_order_rejects_unavailable_line_witness :
    (cartItemA ∈ sessCartA.cart ∧
     cartLineUnavailable stNoListing.db.vendorProducts cartItemA) ∧
    ∃ m, createOrder 10 1000 none stNoListing sessCartA = (.err 400 m, stNoListing) :=
  ⟨⟨by simp [sessCartA], trivial⟩,
   create_order_rejects_unavailable_line 10 1000 none stNoListing sessCartA
     cartItemA (by simp [sessCartA]) trivial⟩

/-- Claim C8: a verify-payment request whose signature differs from
the HMAC-SHA256 hex digest of orderId|paymentId under the shared
secret fails with a 400 error and leaves the whole state — order
status, stock, payments, payouts, session — unchanged; the same holds
for the payments-route verify endpoint. -/
theorem verify_payment_invalid_signature
    (env : Env) (freshPaymentId payoutBase : Nat)
    (rzpOrderId rzpPaymentId rzpSignature : String) (orderId : Nat)
    (st : St) (sess : Session)
    (h : rzpSignature ≠
      env.hmacSha256Hex env.razorpayKeySecret (rzpOrderId ++ "|" ++ rzpPaymentId)) :
    ordersVerifyPayment env freshPaymentId payoutBase
        rzpOrderId rzpPaymentId rzpSignature orderId st sess
      = (.err 400 "Invalid payment signature", st, sess) ∧
    paymentsVerify env rzpOrderId rzpPaymentId rzpSignature st
      = (.err 400 "Invalid payment signature", st) := by
  have h2 : env.hmacSha256Hex env.razorpayKeySecret
      (rzpOrderId ++ "|" ++ rzpPaymentId) ≠ rzpSignature := fun e => h e.symm
  constructor
  · simp [ordersVerifyPayment, if_pos h2]
  · simp [paymentsVerify, if_pos h2]

/-- Witness for C8 at a concrete input: a signature that does not
match the digest of the test HMAC. -/
theorem verify_payment_invalid_signature_witness :
    ("bad" ≠ sampleEnv.hmacSha256Hex sampleEnv.razorpayKeySecret ("o1" ++ "|" ++ "p1")) ∧
    ordersVerifyPayment sampleEnv 1 2 "o1" "p1" "bad" 10 stNoListing sessCartA
      = (.err 400 "Invalid payment signature", stNoListing, sessCartA) ∧
    paymentsVerify sampleEnv "o1" "p1" "bad" stNoListing
      = (.err 400 "Invalid payment signature", stNoListing) := by
  have h : ("bad" : String) ≠
      sampleEnv.hmacSha256Hex sampleEnv.razorpayKeySecret ("o1" ++ "|" ++ "p1") := by
    decide
  exact ⟨h,
    (verify_payment_invalid_signature sampleEnv 1 2 "o1" "p1" "bad" 10
      stNoListing sessCartA h).1,
    (verify_payment_invalid_signature sampleEnv 1 2 "o1" "p1" "bad" 10
      stNoListing sessCartA h).2⟩

/-- Claim C9 (counterexample): at a concrete state holding one cached
product read response, demo-checkout confirms the payment
successfully, yet the product cache entry is still present afterwards
— confirmation does not invalidate the product or vendor response
caches. -/
theorem cache_entry_survives_confirmation :
    (demoCheckout 2000 50 10 stCached sessU7).1
      = .ok "Demo payment successful! Order completed." ∧
    (demoCheckout 2000 50 10 stCached sessU7).2.1.caches.medium
      = ["products_1_10_all_none"] := by
  constructor <;> rfl

/-- Claim C9 (amended): the payment-confirmation handlers perform no
cache invalidation at all: demo-checkout and verify-payment leave
every response cache exactly as it was, so cached product and vendor
read responses survive payment confirmation until TTL expiry. -/
theorem payment_confirmation_preserves_caches :
    (∀ (now payoutBase orderId : Nat) (st : St) (sess : Session),
      (demoCheckout now payoutBase orderId st sess).2.1.caches = st.caches) ∧
    (∀ (env : Env) (freshPaymentId payoutBase : Nat)
       (rzpOrderId rzpPaymentId rzpSignature : String) (orderId : Nat)
       (st : St) (sess : Session),
      (ordersVerifyPayment env freshPaymentId payoutBase
          rzpOrderId rzpPaymentId rzpSignature orderId st sess).2.1.caches
        = st.caches) := by
  constructor
  · intro now payoutBase orderId st sess
    unfold demoCheckout
    cases hf : st.db.orders.find? (fun o => decide (o.id = orderId)) with
    | none => rfl
    | some order =>
      by_cases ho : order.userId ≠ sess.userId
      · simp only [if_pos ho]
      · simp only [if_neg ho]
  · intro env freshPaymentId payoutBase rzpOrderId rzpPaymentId rzpSignature orderId st sess
    unfold ordersVerifyPayment
    by_cases hs : env.hmacSha256Hex env.razorpayKeySecret
        (rzpOrderId ++ "|" ++ rzpPaymentId) ≠ rzpSignature
    · simp only [if_pos hs]
    · simp only [if_neg hs]
      cases hf : st.db.orders.find? (fun o => decide (o.id = orderId)) with
      | none => rfl
      | some order => rfl

/-- The snapshot line create-order builds for cartItemA against
listingA. -/
def snapItemA : OrderItem :=
  { vendorProductId := 1, productId := 11, vendorId := 21, price := 100,
    qty := 2, productName := "A", storeName := "S" }

/-- A state holding listingA and nothing else. -/
def stWithListing : St :=
  { db := { vendorProducts := [listingA], orders := [], payments := [],
            reviews := [], vendors := [] }
    caches := emptyCaches }

/-- Claim C4: a created order's total amount is the sum of price times
quantity over its snapshotted line items, and the vendor product
update route — the only write path for a listing's price — never
touches the orders collection, so the snapshot total and per-line
prices of persisted orders are unaffected by later price changes. -/
theorem order_total_is_snapshot_sum
    (freshOrderId now : Nat) (gatewayOrderId : Option String)
    (st : St) (sess : Session) (items : List OrderItem) (total : ℚ)
    (hne : sess.cart.isEmpty = false)
    (hv : validateCart st.db.vendorProducts sess.cart = .ok (items, total)) :
    (∃ o : Order,
      (createOrder freshOrderId now gatewayOrderId st sess).2.db.orders
        = st.db.orders ++ [o] ∧
      o.items = items ∧ o.totalAmount = lineTotal o.items) ∧
    (∀ (productId : Nat) (price : Option ℚ) (stock : Option ℤ)
       (st2 : St) (sess2 : Session),
      (updateVendorProduct productId price stock st2 sess2).2.db.orders
        = st2.db.orders) := by
  constructor
  · refine ⟨{ id := freshOrderId, userId := sess.userId, items := items,
              totalAmount := total, status := .pending,
              paymentType := match gatewayOrderId with
                | some _ => "razorpay"
                | none => "demo",
              razorpayOrderId := gatewayOrderId.getD ("demo_" ++ toString now),
              razorpayPaymentId := none }, ?_, rfl, ?_⟩
    · simp [createOrder, hne, hv]
    · simpa using validateCart_total st.db.vendorProducts sess.cart items total hv
  · intro productId price stock st2 sess2
    unfold updateVendorProduct
    cases hv2 : st2.db.vendors.find? (fun v => decide (v.userId = sess2.userId)) with
    | none => rfl
    | some vendor =>
      dsimp only
      cases hp : st2.db.vendorProducts.find? (fun vp =>
          decide (vp.id = productId) && decide (vp.vendorId = vendor.id)) with
      | none => rfl
      | some vp0 => rfl

/-- Witness for C4 at a concrete input: user 7 checks out 2 units of
listingA at price 100, total 200. -/
theorem order_total_is_snapshot_sum_witness :
    (sessCartA.cart.isEmpty = false ∧
     validateCart stWithListing.db.vendorProducts sessCartA.cart
       = .ok ([snapItemA], 200)) ∧
    ((∃ o : Order,
      (createOrder 10 1000 none stWithListing sessCartA).2.db.orders
        = stWithListing.db.orders ++ [o] ∧
      o.items = [snapItemA] ∧ o.totalAmount = lineTotal o.items) ∧
    (∀ (productId : Nat) (price : Option ℚ) (stock : Option ℤ)
       (st2 : St) (sess2 : Session),
      (updateVendorProduct productId price stock st2 sess2).2.db.orders
        = st2.db.orders)) := by
  have hv : validateCart stWithListing.db.vendorProducts sessCartA.cart
      = .ok ([snapItemA], 200) := by
    simp [validateCart, stWithListing, sessCartA, cartItemA, listingA, snapItemA]
    norm_num
  exact ⟨⟨rfl, hv⟩,
    order_total_is_snapshot_sum 10 1000 none stWithListing sessCartA
      [snapItemA] 200 rfl hv⟩

theorem itemsDec_cons (it : OrderItem) (items : List OrderItem) (id : Nat) :
    itemsDec (it :: items) id =
      (if it.vendorProductId = id then (it.qty : ℤ) else 0) + itemsDec items id := by
  by_cases h : it.vendorProductId = id
  · simp [itemsDec, h]
  · simp [itemsDec, h]

/-- The bulk stock update maps every listing to itself with its stock
reduced by the total quantity the order lines request of it. -/
theorem applyStockUpdates_eq :
    ∀ (items : List OrderItem) (vps : List VendorProduct),
      applyStockUpdates vps items
        = vps.map (fun vp => { vp with stock := vp.stock - itemsDec items vp.id })
  | [], vps => by
    have h : (fun vp : VendorProduct =>
        { vp with stock := vp.stock - itemsDec [] vp.id }) = fun vp => vp := by
      funext vp
      simp [itemsDec]
    rw [h]
    simp [applyStockUpdates]
  | it :: items, vps => by
    have step : applyStockUpdates vps (it :: items)
        = applyStockUpdates (decStock vps it) items := rfl
    rw [step, applyStockUpdates_eq items (decStock vps it), decStock, List.map_map]
    have h : ((fun vp : VendorProduct =>
          { vp with stock := vp.stock - itemsDec items vp.id }) ∘
        (fun vp : VendorProduct =>
          if vp.id = it.vendorProductId then
            { vp with stock := vp.stock - (it.qty : ℤ) }
          else vp))
        = fun vp => { vp with stock := vp.stock - itemsDec (it :: items) vp.id } := by
      funext vp
      by_cases hid : vp.id = it.vendorProductId
      · simp only [Function.comp_apply, if_pos hid, itemsDec_cons,
          if_pos hid.symm]
        simp [sub_sub]
      · have hni : ¬ it.vendorProductId = vp.id := fun e => hid e.symm
        simp only [Function.comp_apply, if_neg hid, itemsDec_cons,
          if_neg hni, zero_add]
    rw [h]

/-- Effect of the bulk stock update on the observed stock of one
listing id. -/
theorem stockOf_applyStockUpdates (vps : List VendorProduct)
    (items : List OrderItem) (id : Nat) :
    stockOf (applyStockUpdates vps items) id
      = (stockOf vps id).map (fun s => s - itemsDec items id) := by
  rw [applyStockUpdates_eq]
  unfold stockOf
  rw [List.find?_map]
  have hpf : ((fun vp : VendorProduct => decide (vp.id = id)) ∘
      (fun vp : VendorProduct =>
        { vp with stock := vp.stock - itemsDec items vp.id }))
      = fun vp => decide (vp.id = id) := rfl
  rw [hpf]
  cases h : vps.find? (fun vp => decide (vp.id = id)) with
  | none => rfl
  | some vp =>
    have hid : vp.id = id := by simpa using List.find?_some h
    simp [hid]

/-- Every payout document built for the orders route is invalid
against the payment schema: it lacks the required userId path. -/
theorem payoutDocsFor_invalid (payoutBase : Nat) (order : Order) :
    ∀ d ∈ payoutDocsFor payoutBase order, paymentValid d = false := by
  intro d hd
  obtain ⟨g, hg, hge⟩ := List.mem_map.mp hd
  rw [← hge]
  rfl

/-- When the first document of the batch is invalid, the payout save
loop persists nothing: save() throws on it and the catch aborts. -/
theorem savePayoutDocs_noop (payments : List Payment) :
    ∀ docs : List Payment, (∀ d ∈ docs, paymentValid d = false) →
      savePayoutDocs payments docs = payments
  | [], _ => rfl
  | d :: ds, h => by
    unfold savePayoutDocs savePayment
    rw [h d (List.mem_cons_self d ds)]
    simp

/-- processVendorPayouts never changes the database: every payout
document it builds fails schema validation and the error is swallowed
inside the function. -/
theorem processVendorPayouts_noop (payoutBase : Nat) (order : Order) (db : DB) :
    processVendorPayouts payoutBase order db = db := by
  unfold processVendorPayouts
  rw [savePayoutDocs_noop db.payments (payoutDocsFor payoutBase order)
    (payoutDocsFor_invalid payoutBase order)]

/-- Closed form of a successful demo-checkout run: the stock is bulk
decremented, the order is marked paid and the session cart is
cleared; the payout saves all fail schema validation, so the payments
collection is unchanged. -/
theorem demoCheckout_success (now payoutBase orderId : Nat)
    (st : St) (sess : Session) (order : Order)
    (hfind : st.db.orders.find? (fun o => decide (o.id = orderId)) = some order)
    (hown : order.userId = sess.userId) :
    demoCheckout now payoutBase orderId st sess =
      (.ok "Demo payment successful! Order completed.",
       { st with db :=
          { st.db with
              vendorProducts := applyStockUpdates st.db.vendorProducts order.items
              orders := st.db.orders.map (fun o =>
                if o.id = orderId then
                  { order with
                    status := .paid
                    razorpayPaymentId := some ("demo_payment_" ++ toString now) }
                else o) } },
       { sess with cart := [] }) := by
  have hno : ¬ order.userId ≠ sess.userId := fun hne => hne hown
  unfold demoCheckout
  simp only [hfind, if_neg hno]
  rw [processVendorPayouts_noop]

/-- Updating the order matching an id in place keeps it findable by
the same id. -/
theorem find?_orders_update (l : List Order) (orderId : Nat) (order u : Order)
    (hfind : l.find? (fun o => decide (o.id = orderId)) = some order)
    (hu : u.id = orderId) :
    (l.map (fun o => if o.id = orderId then u else o)).find?
        (fun o => decide (o.id = orderId)) = some u := by
  induction l with
  | nil => simp at hfind
  | cons a l ih =>
    rw [List.find?_cons] at hfind
    by_cases ha : a.id = orderId
    · simp only [List.map_cons, if_pos ha]
      rw [List.find?_cons]
      simp [hu]
    · have hd : decide (a.id = orderId) = false := by simp [ha]
      rw [hd] at hfind
      simp only [List.map_cons, if_neg ha]
      rw [List.find?_cons, hd]
      exact ih hfind

/-- Observable effects of a successful demo-checkout: the stock of any
listing id drops by the total quantity the order lines request of it,
the order stays findable by id with its status flipped to paid, and
the session cart is cleared. -/
theorem demoCheckout_effects (now payoutBase orderId lid : Nat)
    (st : St) (sess : Session) (order : Order)
    (hfind : st.db.orders.find? (fun o => decide (o.id = orderId)) = some order)
    (hown : order.userId = sess.userId) :
    stockOf (demoCheckout now payoutBase orderId st sess).2.1.db.vendorProducts lid
      = (stockOf st.db.vendorProducts lid).map
          (fun s => s - itemsDec order.items lid) ∧
    (demoCheckout now payoutBase orderId st sess).2.1.db.orders.find?
        (fun o => decide (o.id = orderId))
      = some { order with
          status := OrderStatus.paid
          razorpayPaymentId := some ("demo_payment_" ++ toString now) } ∧
    (demoCheckout now payoutBase orderId st sess).2.2 = { sess with cart := [] } := by
  have horder : order.id = orderId := by simpa using List.find?_some hfind
  rw [demoCheckout_success now payoutBase orderId st sess order hfind hown]
  dsimp only
  refine ⟨?_, ?_, rfl⟩
  · rw [stockOf_applyStockUpdates]
  · exact find?_orders_update _ _ order _ hfind horder

/-- Claim C1 (counterexample): stock 5, order quantity 2; the first
demo-checkout confirmation brings stock to 3, a second confirmation of
the same, already paid order succeeds again and brings stock to 1 —
a total decrement of 4, strictly more than q = 2, because the handler
never checks the order status. -/
theorem demo_checkout_double_decrement_cex :
    (demoCheckout 2000 50 10 stCached sessU7).1
      = .ok "Demo payment successful! Order completed." ∧
    stockOf (demoCheckout 2000 50 10 stCached sessU7).2.1.db.vendorProducts 1
      = some 3 ∧
    (demoCheckout 3000 60 10 (demoCheckout 2000 50 10 stCached sessU7).2.1
        (demoCheckout 2000 50 10 stCached sessU7).2.2).1
      = .ok "Demo payment successful! Order completed." ∧
    stockOf (demoCheckout 3000 60 10 (demoCheckout 2000 50 10 stCached sessU7).2.1
        (demoCheckout 2000 50 10 stCached sessU7).2.2).2.1.db.vendorProducts 1
      = some 1 ∧
    ¬((5 : ℤ) - 1 ≤ 2) := by
  refine ⟨rfl, rfl, rfl, rfl, by decide⟩

/-- Claim C1 (amended): confirming payment decrements the listing's
stock by exactly q on every invocation: one call yields s - q, and a
second call on the resulting state — the orders route has no
idempotency guard and never resets or checks the status — yields
s - q - q. -/
theorem demo_checkout_decrements_per_invocation
    (now1 now2 payoutBase1 payoutBase2 orderId lid : Nat) (q s : ℤ)
    (st : St) (sess : Session) (order : Order)
    (hfind : st.db.orders.find? (fun o => decide (o.id = orderId)) = some order)
    (hown : order.userId = sess.userId)
    (hq : itemsDec order.items lid = q)
    (hs : stockOf st.db.vendorProducts lid = some s) :
    stockOf (demoCheckout now1 payoutBase1 orderId st sess).2.1.db.vendorProducts lid
      = some (s - q) ∧
    stockOf (demoCheckout now2 payoutBase2 orderId
        (demoCheckout now1 payoutBase1 orderId st sess).2.1
        (demoCheckout now1 payoutBase1 orderId st sess).2.2).2.1.db.vendorProducts lid
      = some (s - q - q) := by
  obtain h1 := demoCheckout_effects now1 payoutBase1 orderId lid st sess order hfind hown
  obtain ⟨h1s, h1f, h1sess⟩ := h1
  constructor
  · rw [h1s, hs, hq]
    rfl
  · have hown1 : ({ order with
        status := OrderStatus.paid
        razorpayPaymentId := some ("demo_payment_" ++ toString now1) } : Order).userId
        = (demoCheckout now1 payoutBase1 orderId st sess).2.2.userId := by
      rw [h1sess]
      exact hown
    obtain ⟨h2s, h2f, h2sess⟩ := demoCheckout_effects now2 payoutBase2 orderId lid
      (demoCheckout now1 payoutBase1 orderId st sess).2.1
      (demoCheckout now1 payoutBase1 orderId st sess).2.2
      _ h1f hown1
    rw [h2s]
    dsimp only
    rw [hq, h1s, hs, hq]
    rfl

/-- Witness for the amended C1 at a concrete input: the pending order
for 2 units of listing 1 with stock 5, confirmed twice. -/
theorem demo_checkout_decrements_per_invocation_witness :
    (stCached.db.orders.find? (fun o => decide (o.id = 10)) = some orderA ∧
     orderA.userId = sessU7.userId ∧
     itemsDec orderA.items 1 = 2 ∧
     stockOf stCached.db.vendorProducts 1 = some 5) ∧
    stockOf (demoCheckout 2000 50 10 stCached sessU7).2.1.db.vendorProducts 1
      = some (5 - 2) ∧
    stockOf (demoCheckout 3000 60 10
        (demoCheckout 2000 50 10 stCached sessU7).2.1
        (demoCheckout 2000 50 10 stCached sessU7).2.2).2.1.db.vendorProducts 1
      = some (5 - 2 - 2) :=
  ⟨⟨rfl, rfl, by decide, rfl⟩,
   demo_checkout_decrements_per_invocation 2000 3000 50 60 10 1 2 5
     stCached sessU7 orderA rfl rfl (by decide) rfl⟩

/-- Closed form of an orders-route verify-payment run with a matching
signature on an existing order: the stock decrement and the paid
status flip persist, but the Payment record built with status
completed fails schema validation, so the handler answers 500 and
neither persists a payment nor processes payouts nor clears the
cart. -/
theorem ordersVerifyPayment_schema_reject (env : Env) (freshPaymentId payoutBase : Nat)
    (rzpOrderId rzpPaymentId : String) (orderId : Nat)
    (st : St) (sess : Session) (order : Order)
    (hfind : st.db.orders.find? (fun o => decide (o.id = orderId)) = some order) :
    ordersVerifyPayment env freshPaymentId payoutBase rzpOrderId rzpPaymentId
        (env.hmacSha256Hex env.razorpayKeySecret (rzpOrderId ++ "|" ++ rzpPaymentId))
        orderId st sess
      = (.err 500 "Payment verification failed",
         { st with db :=
            { st.db with
                vendorProducts := applyStockUpdates st.db.vendorProducts order.items
                orders := st.db.orders.map (fun o =>
                  if o.id = orderId then
                    { order with
                      status := .paid
                      razorpayPaymentId := some rzpPaymentId }
                  else o) } },
         sess) := by
  have hsig : ¬ (env.hmacSha256Hex env.razorpayKeySecret (rzpOrderId ++ "|" ++ rzpPaymentId)
      ≠ env.hmacSha256Hex env.razorpayKeySecret (rzpOrderId ++ "|" ++ rzpPaymentId)) :=
    fun hne => hne rfl
  unfold ordersVerifyPayment
  simp only [if_neg hsig, hfind]
  rfl

/-- A session for user 8 (not the owner of orderA) with an empty
cart. -/
def sessU8 : Session := { userId := 8, cart := [] }

/-- A session for user 8 with a non-empty cart, to observe whether
verification clears it. -/
def sessU8Cart : Session := { userId := 8, cart := [cartItemA] }

/-- Claim C10 (counterexample): with a valid signature, orders-route
verify-payment does not succeed for any caller: at a concrete state
it answers 500 — the payment record it builds has status completed,
which the payment schema enum rejects, so its save() throws — no
payment document is persisted and the caller's session cart is not
cleared, although the stock decrement and the paid status flip did
persist first. -/
theorem verify_payment_not_successful_cex :
    (ordersVerifyPayment sampleEnv 90 91 "o1" "p1"
        (sampleEnv.hmacSha256Hex sampleEnv.razorpayKeySecret ("o1" ++ "|" ++ "p1"))
        10 stCached sessU8Cart).1
      = .err 500 "Payment verification failed" ∧
    (ordersVerifyPayment sampleEnv 90 91 "o1" "p1"
        (sampleEnv.hmacSha256Hex sampleEnv.razorpayKeySecret ("o1" ++ "|" ++ "p1"))
        10 stCached sessU8Cart).2.2 = sessU8Cart ∧
    (ordersVerifyPayment sampleEnv 90 91 "o1" "p1"
        (sampleEnv.hmacSha256Hex sampleEnv.razorpayKeySecret ("o1" ++ "|" ++ "p1"))
        10 stCached sessU8Cart).2.1.db.payments = ([] : List Payment) ∧
    stockOf (ordersVerifyPayment sampleEnv 90 91 "o1" "p1"
        (sampleEnv.hmacSha256Hex sampleEnv.razorpayKeySecret ("o1" ++ "|" ++ "p1"))
        10 stCached sessU8Cart).2.1.db.vendorProducts 1 = some 3 ∧
    ((ordersVerifyPayment sampleEnv 90 91 "o1" "p1"
        (sampleEnv.hmacSha256Hex sampleEnv.razorpayKeySecret ("o1" ++ "|" ++ "p1"))
        10 stCached sessU8Cart).2.1.db.orders.map Order.status)
      = [OrderStatus.paid] := by
  refine ⟨rfl, rfl, rfl, rfl, rfl⟩

/-- Claim C10 (amended): the orders-route verify-payment handler
performs no ownership check — with a valid gateway signature, a
session that does not own the order still drives the confirmation:
stock is decremented for the order lines and the order is marked
paid.  The handler then fails on its own payment record, whose
status completed violates the payment schema enum: the response is a
500 error, no payment document is persisted and the caller's session
— cart included — is untouched.  demo-checkout, in contrast, rejects
a non-owner with a 403 Forbidden error and changes nothing. -/
theorem verify_payment_ignores_ownership
    (env : Env) (freshPaymentId payoutBase now payoutBase2 : Nat)
    (rzpOrderId rzpPaymentId : String) (orderId : Nat)
    (st : St) (sess : Session) (order : Order)
    (hfind : st.db.orders.find? (fun o => decide (o.id = orderId)) = some order)
    (hnotown : order.userId ≠ sess.userId) :
    ((ordersVerifyPayment env freshPaymentId payoutBase rzpOrderId rzpPaymentId
        (env.hmacSha256Hex env.razorpayKeySecret (rzpOrderId ++ "|" ++ rzpPaymentId))
        orderId st sess).1
      = .err 500 "Payment verification failed" ∧
     (ordersVerifyPayment env freshPaymentId payoutBase rzpOrderId rzpPaymentId
        (env.hmacSha256Hex env.razorpayKeySecret (rzpOrderId ++ "|" ++ rzpPaymentId))
        orderId st sess).2.1.db.orders.find? (fun o => decide (o.id = orderId))
      = some { order with
          status := OrderStatus.paid
          razorpayPaymentId := some rzpPaymentId } ∧
     (ordersVerifyPayment env freshPaymentId payoutBase rzpOrderId rzpPaymentId
        (env.hmacSha256Hex env.razorpayKeySecret (rzpOrderId ++ "|" ++ rzpPaymentId))
        orderId st sess).2.1.db.vendorProducts
      = applyStockUpdates st.db.vendorProducts order.items ∧
     (ordersVerifyPayment env freshPaymentId payoutBase rzpOrderId rzpPaymentId
        (env.hmacSha256Hex env.razorpayKeySecret (rzpOrderId ++ "|" ++ rzpPaymentId))
        orderId st sess).2.1.db.payments = st.db.payments ∧
     (ordersVerifyPayment env freshPaymentId payoutBase rzpOrderId rzpPaymentId
        (env.hmacSha256Hex env.razorpayKeySecret (rzpOrderId ++ "|" ++ rzpPaymentId))
        orderId st sess).2.2 = sess) ∧
    demoCheckout now payoutBase2 orderId st sess = (.err 403 "Unauthorized", st, sess) := by
  have horder : order.id = orderId := by simpa using List.find?_some hfind
  constructor
  · rw [ordersVerifyPayment_schema_reject env freshPaymentId payoutBase rzpOrderId
      rzpPaymentId orderId st sess order hfind]
    refine ⟨rfl, ?_, rfl, rfl, rfl⟩
    exact find?_orders_update _ _ order _ hfind horder
  · unfold demoCheckout
    simp only [hfind, if_pos hnotown]

/-- Witness for the amended C10 at a concrete input: user 8 submits a
valid signature for the order owned by user 7 — stock drops and the
order flips to paid, the response is the 500 schema failure with no
payment saved and the cart kept — while demo-checkout rejects user 8
with 403. -/
theorem verify_payment_ignores_ownership_witness :
    (stCached.db.orders.find? (fun o => decide (o.id = 10)) = some orderA ∧
     orderA.userId ≠ sessU8.userId) ∧
    ((ordersVerifyPayment sampleEnv 90 91 "o1" "p1"
        (sampleEnv.hmacSha256Hex sampleEnv.razorpayKeySecret ("o1" ++ "|" ++ "p1"))
        10 stCached sessU8).1
      = .err 500 "Payment verification failed" ∧
     (ordersVerifyPayment sampleEnv 90 91 "o1" "p1"
        (sampleEnv.hmacSha256Hex sampleEnv.razorpayKeySecret ("o1" ++ "|" ++ "p1"))
        10 stCached sessU8).2.1.db.orders.find? (fun o => decide (o.id = 10))
      = some { orderA with
          status := OrderStatus.paid
          razorpayPaymentId := some "p1" } ∧
     (ordersVerifyPayment sampleEnv 90 91 "o1" "p1"
        (sampleEnv.hmacSha256Hex sampleEnv.razorpayKeySecret ("o1" ++ "|" ++ "p1"))
        10 stCached sessU8).2.1.db.vendorProducts
      = applyStockUpdates stCached.db.vendorProducts orderA.items ∧
     (ordersVerifyPayment sampleEnv 90 91 "o1" "p1"
        (sampleEnv.hmacSha256Hex sampleEnv.razorpayKeySecret ("o1" ++ "|" ++ "p1"))
        10 stCached sessU8).2.1.db.payments = stCached.db.payments ∧
     (ordersVerifyPayment sampleEnv 90 91 "o1" "p1"
        (sampleEnv.hmacSha256Hex sampleEnv.razorpayKeySecret ("o1" ++ "|" ++ "p1"))
        10 stCached sessU8).2.2 = sessU8) ∧
    demoCheckout 77 78 10 stCached sessU8 = (.err 403 "Unauthorized", stCached, sessU8) :=
  ⟨⟨rfl, by decide⟩,
   verify_payment_ignores_ownership sampleEnv 90 91 77 78 "o1" "p1" 10
     stCached sessU8 orderA rfl (by decide)⟩

/-- orderA after payment: status paid. -/
def orderPaid : Order := { orderA with status := .paid }

/-- A state holding listingA and the paid orderPaid, with no reviews
yet. -/
def stPaid : St :=
  { db := { vendorProducts := [listingA], orders := [orderPaid], payments := [],
            reviews := [], vendors := [] }
    caches := emptyCaches }

/-- Claim C5: create-review succeeds only when the caller owns a
paid-or-later order containing the exact (product, vendor) pair — the
handler in fact requires status to be exactly paid, which implies
paid-or-later — and when no such order exists the call fails with an
error and leaves the state unchanged, creating no review. -/
theorem review_requires_paid_purchase
    (freshReviewId orderId productId vendorId : Nat) (rating : ℤ)
    (comment : String) (st : St) (sess : Session) :
    ((createReview freshReviewId orderId productId vendorId rating comment st sess).1
        = .ok "Review created successfully" →
      ∃ order, order ∈ st.db.orders ∧ order.userId = sess.userId ∧
        paidOrLater order.status ∧
        ∃ it, it ∈ order.items ∧ it.productId = productId ∧ it.vendorId = vendorId) ∧
    ((¬ ∃ order, order ∈ st.db.orders ∧ order.userId = sess.userId ∧
        paidOrLater order.status ∧
        ∃ it, it ∈ order.items ∧ it.productId = productId ∧ it.vendorId = vendorId) →
      ∃ code msg,
        createReview freshReviewId orderId productId vendorId rating comment st sess
          = (.err code msg, st)) := by
  constructor
  · intro h
    unfold createReview at h
    by_cases hr : rating < 1 ∨ 5 < rating
    · rw [if_pos hr] at h
      exact absurd h (by simp)
    · rw [if_neg hr] at h
      cases hfo : st.db.orders.find? (fun o =>
          decide (o.id = orderId) && decide (o.userId = sess.userId) &&
          decide (o.status = OrderStatus.paid)) with
      | none =>
        simp only [hfo] at h
        exact absurd h (by simp)
      | some order =>
        simp only [hfo] at h
        have hor := List.find?_some hfo
        simp only [Bool.and_eq_true, decide_eq_true_eq] at hor
        obtain ⟨⟨hid, huid⟩, hstat⟩ := hor
        have hmem := List.mem_of_find?_eq_some hfo
        cases hfi : order.items.find? (fun it =>
            decide (it.productId = productId) && decide (it.vendorId = vendorId)) with
        | none =>
          simp only [hfi] at h
          exact absurd h (by simp)
        | some it =>
          have hit := List.find?_some hfi
          simp only [Bool.and_eq_true, decide_eq_true_eq] at hit
          obtain ⟨hip, hiv⟩ := hit
          exact ⟨order, hmem, huid, Or.inl hstat,
            it, List.mem_of_find?_eq_some hfi, hip, hiv⟩
  · intro hno
    unfold createReview
    by_cases hr : rating < 1 ∨ 5 < rating
    · rw [if_pos hr]
      exact ⟨400, "Validation failed", rfl⟩
    · rw [if_neg hr]
      cases hfo : st.db.orders.find? (fun o =>
          decide (o.id = orderId) && decide (o.userId = sess.userId) &&
          decide (o.status = OrderStatus.paid)) with
      | none => exact ⟨400, "Order not found or not paid", rfl⟩
      | some order =>
        dsimp only
        have hor := List.find?_some hfo
        simp only [Bool.and_eq_true, decide_eq_true_eq] at hor
        obtain ⟨⟨hid, huid⟩, hstat⟩ := hor
        have hmem := List.mem_of_find?_eq_some hfo
        cases hfi : order.items.find? (fun it =>
            decide (it.productId = productId) && decide (it.vendorId = vendorId)) with
        | none => exact ⟨400, "Product not found in this order", rfl⟩
        | some it =>
          exfalso
          have hit := List.find?_some hfi
          simp only [Bool.and_eq_true, decide_eq_true_eq] at hit
          obtain ⟨hip, hiv⟩ := hit
          exact hno ⟨order, hmem, huid, Or.inl hstat,
            it, List.mem_of_find?_eq_some hfi, hip, hiv⟩

/-- Witness for C5 at a concrete input: user 7 reviews product 11 of
vendor 21 bought in the paid order 10. -/
theorem review_requires_paid_purchase_witness :
    ((createReview 100 10 11 21 5 "" stPaid sessU7).1
      = .ok "Review created successfully") ∧
    ∃ order, order ∈ stPaid.db.orders ∧ order.userId = sessU7.userId ∧
      paidOrLater order.status ∧
      ∃ it, it ∈ order.items ∧ it.productId = 11 ∧ it.vendorId = 21 :=
  ⟨rfl, (review_requires_paid_purchase 100 10 11 21 5 "" stPaid sessU7).1 rfl⟩

/-- Claim C6: at most one review can exist per (user, order, product):
a second create-review with identical keys is rejected with the 400
duplicate error and creates no second review; moreover uniqueness is
enforced by the unique database index itself — any insert that would
duplicate a stored (userId, orderId, productId) key fails, so the
store invariant of pairwise-distinct keys is preserved even when the
application-level pre-check is bypassed. -/
theorem review_unique_per_user_order_product
    (freshReviewId1 freshReviewId2 orderId productId vendorId : Nat)
    (rating : ℤ) (comment : String) (st : St) (sess : Session) (st1 : St)
    (h : createReview freshReviewId1 orderId productId vendorId rating comment st sess
        = (.ok "Review created successfully", st1)) :
    createReview freshReviewId2 orderId productId vendorId rating comment st1 sess
      = (.err 400 "Review already exists for this product", st1) ∧
    ∀ (reviews : List Review) (r : Review) (reviews2 : List Review),
      uniqueReviewKeys reviews → saveReview reviews r = .ok reviews2 →
      uniqueReviewKeys reviews2 := by
  constructor
  · unfold createReview at h
    by_cases hr : rating < 1 ∨ 5 < rating
    · rw [if_pos hr] at h
      exact absurd h (by simp)
    · rw [if_neg hr] at h
      cases hfo : st.db.orders.find? (fun o =>
          decide (o.id = orderId) && decide (o.userId = sess.userId) &&
          decide (o.status = OrderStatus.paid)) with
      | none =>
        simp only [hfo] at h
        exact absurd h (by simp)
      | some order =>
        simp only [hfo] at h
        cases hfi : order.items.find? (fun it =>
            decide (it.productId = productId) && decide (it.vendorId = vendorId)) with
        | none =>
          simp only [hfi] at h
          exact absurd h (by simp)
        | some it =>
          simp only [hfi] at h
          cases hex : st.db.reviews.find? (fun r =>
              decide (r.userId = sess.userId) && decide (r.orderId = orderId) &&
              decide (r.productId = productId) && decide (r.vendorId = vendorId)) with
          | some r0 =>
            simp only [hex] at h
            exact absurd h (by simp)
          | none =>
            simp only [hex] at h
            cases hsave : saveReview st.db.reviews
                { id := freshReviewId1, userId := sess.userId, orderId := orderId
                  productId := productId, vendorId := vendorId
                  vendorProductId := it.vendorProductId, rating := rating
                  comment := comment } with
            | error e =>
              simp only [hsave] at h
              exact absurd h (by simp)
            | ok reviews1 =>
              simp only [hsave] at h
              simp only [Prod.mk.injEq, true_and] at h
              have hrev : reviews1 = st.db.reviews ++
                  [{ id := freshReviewId1, userId := sess.userId, orderId := orderId
                     productId := productId, vendorId := vendorId
                     vendorProductId := it.vendorProductId, rating := rating
                     comment := comment }] := by
                unfold saveReview at hsave
                split at hsave
                · exact absurd hsave (by simp)
                · simp only [Except.ok.injEq] at hsave
                  exact hsave.symm
              subst hrev
              subst h
              unfold createReview
              rw [if_neg hr]
              simp only [hfo, hfi]
              have hsome : ((st.db.reviews ++
                  ([{ id := freshReviewId1, userId := sess.userId, orderId := orderId
                      productId := productId, vendorId := vendorId
                      vendorProductId := it.vendorProductId, rating := rating
                      comment := comment }] : List Review)).find? (fun r : Review =>
                    decide (r.userId = sess.userId) && decide (r.orderId = orderId) &&
                    decide (r.productId = productId) &&
                    decide (r.vendorId = vendorId))).isSome := by
                rw [List.find?_isSome]
                refine ⟨{ id := freshReviewId1, userId := sess.userId, orderId := orderId
                          productId := productId, vendorId := vendorId
                          vendorProductId := it.vendorProductId, rating := rating
                          comment := comment }, by simp, by simp⟩
              obtain ⟨r0, hr0⟩ := Option.isSome_iff_exists.mp hsome
              simp only [hr0]
  · intro reviews r reviews2 huniq hsave
    unfold saveReview at hsave
    split at hsave
    · exact absurd hsave (by simp)
    · rename_i hconf
      simp only [Except.ok.injEq] at hsave
      subst hsave
      have hall : ∀ r0 ∈ reviews,
          ¬(r0.userId = r.userId ∧ r0.orderId = r.orderId ∧
            r0.productId = r.productId) := by
        intro r0 hr0 hcon
        refine hconf ?_
        rw [List.any_eq_true]
        exact ⟨r0, hr0, by simp [hcon.1, hcon.2.1, hcon.2.2]⟩
      refine List.pairwise_append.mpr ⟨huniq, by simp, ?_⟩
      intro a ha b hb
      simp only [List.mem_singleton] at hb
      subst hb
      exact hall a ha

/-- Witness for C6 at a concrete input: the same review submitted
twice in sequence; the second call is rejected with the duplicate
error and the state is unchanged. -/
theorem review_unique_per_user_order_product_witness :
    (createReview 100 10 11 21 5 "" stPaid sessU7
      = (.ok "Review created successfully",
         (createReview 100 10 11 21 5 "" stPaid sessU7).2)) ∧
    createReview 101 10 11 21 5 ""
        (createReview 100 10 11 21 5 "" stPaid sessU7).2 sessU7
      = (.err 400 "Review already exists for this product",
         (createReview 100 10 11 21 5 "" stPaid sessU7).2) :=
  ⟨rfl,
   (review_unique_per_user_order_product 100 101 10 11 21 5 "" stPaid sessU7
     (createReview 100 10 11 21 5 "" stPaid sessU7).2 rfl).1⟩

/-! Lemmas about the vendor-grouping folds. -/

theorem keysOf_cons {α : Type} (p : Nat × α) (l : List (Nat × α)) :
    keysOf (p :: l) = p.1 :: keysOf l := rfl

theorem keysOf_append {α : Type} (l1 l2 : List (Nat × α)) :
    keysOf (l1 ++ l2) = keysOf l1 ++ keysOf l2 := by
  simp [keysOf]

theorem sumVals_cons (p : Nat × ℚ) (l : List (Nat × ℚ)) :
    sumVals (p :: l) = p.2 + sumVals l := by
  simp [sumVals]

theorem sumVals_append (l1 l2 : List (Nat × ℚ)) :
    sumVals (l1 ++ l2) = sumVals l1 + sumVals l2 := by
  simp [sumVals]

theorem keysOf_map_update (v : Nat) (x : ℚ) (acc : List (Nat × ℚ)) :
    keysOf (acc.map (fun g => if g.1 = v then (g.1, g.2 + x) else g)) = keysOf acc := by
  unfold keysOf
  rw [List.map_map]
  congr 1
  funext g
  by_cases h : g.1 = v <;> simp [h]

theorem map_update_eq_self (v : Nat) (x : ℚ) :
    ∀ acc : List (Nat × ℚ), v ∉ keysOf acc →
      acc.map (fun g => if g.1 = v then (g.1, g.2 + x) else g) = acc
  | [], _ => rfl
  | p :: acc, h => by
    have hp : ¬ p.1 = v := by
      intro e
      exact h (by rw [keysOf_cons, e]; exact List.mem_cons_self v _)
    have ht : v ∉ keysOf acc := by
      intro hm
      exact h (by rw [keysOf_cons]; exact List.mem_cons_of_mem _ hm)
    simp only [List.map_cons, if_neg hp]
    rw [map_update_eq_self v x acc ht]

theorem sumVals_map_update (v : Nat) (x : ℚ) :
    ∀ acc : List (Nat × ℚ), (keysOf acc).Nodup → v ∈ keysOf acc →
      sumVals (acc.map (fun g => if g.1 = v then (g.1, g.2 + x) else g))
        = sumVals acc + x
  | [], _, hm => absurd hm (by simp [keysOf])
  | p :: acc, hn, hm => by
    rw [keysOf_cons] at hn hm
    by_cases hp : p.1 = v
    · have hv : v ∉ keysOf acc := by
        have h1 := (List.nodup_cons.mp hn).1
        rw [hp] at h1
        exact h1
      simp only [List.map_cons, if_pos hp]
      rw [map_update_eq_self v x acc hv, sumVals_cons, sumVals_cons]
      ring
    · have hm2 : v ∈ keysOf acc := by
        rcases List.mem_cons.mp hm with h | h
        · exact absurd h.symm hp
        · exact h
      simp only [List.map_cons, if_neg hp]
      rw [sumVals_cons, sumVals_cons,
        sumVals_map_update v x acc (List.nodup_cons.mp hn).2 hm2]
      ring

/-- The payments-route grouping fold keeps vendor keys distinct and
accumulates exactly the line total of the consumed items. -/
theorem groupTotals_foldl_sum :
    ∀ (items : List OrderItem) (acc : List (Nat × ℚ)), (keysOf acc).Nodup →
      (keysOf (items.foldl groupTotalsStep acc)).Nodup ∧
      sumVals (items.foldl groupTotalsStep acc) = sumVals acc + lineTotal items
  | [], acc, hn => ⟨hn, by simp [lineTotal]⟩
  | i :: items, acc, hn => by
    rw [List.foldl_cons]
    by_cases hmem : acc.any (fun g => decide (g.1 = i.vendorId)) = true
    · have hv : i.vendorId ∈ keysOf acc := by
        rw [List.any_eq_true] at hmem
        obtain ⟨g, hg, hgv⟩ := hmem
        simp only [decide_eq_true_eq] at hgv
        exact hgv ▸ List.mem_map.mpr ⟨g, hg, rfl⟩
      have hstep : groupTotalsStep acc i
          = acc.map (fun g =>
              if g.1 = i.vendorId then (g.1, g.2 + i.price * (i.qty : ℚ)) else g) := by
        unfold groupTotalsStep
        rw [if_pos hmem]
      rw [hstep]
      have hkeys := keysOf_map_update i.vendorId (i.price * (i.qty : ℚ)) acc
      obtain ⟨hn2, hsum⟩ := groupTotals_foldl_sum items
        (acc.map (fun g =>
          if g.1 = i.vendorId then (g.1, g.2 + i.price * (i.qty : ℚ)) else g))
        (by rw [hkeys]; exact hn)
      refine ⟨hn2, ?_⟩
      rw [hsum, sumVals_map_update i.vendorId (i.price * (i.qty : ℚ)) acc hn hv,
        lineTotal_cons]
      ring
    · have hnv : i.vendorId ∉ keysOf acc := by
        intro hv
        refine hmem ?_
        rw [List.any_eq_true]
        obtain ⟨g, hg, hgv⟩ := List.mem_map.mp hv
        exact ⟨g, hg, by simp [hgv]⟩
      have hstep : groupTotalsStep acc i
          = acc ++ [(i.vendorId, i.price * (i.qty : ℚ))] := by
        unfold groupTotalsStep
        rw [if_neg hmem]
      rw [hstep]
      have hn2 : (keysOf (acc ++ [(i.vendorId, i.price * (i.qty : ℚ))])).Nodup := by
        rw [keysOf_append]
        rw [List.nodup_append]
        refine ⟨hn, by simp [keysOf], ?_⟩
        intro a ha hb
        simp [keysOf] at hb
        subst hb
        exact hnv ha
      obtain ⟨hn3, hsum⟩ := groupTotals_foldl_sum items
        (acc ++ [(i.vendorId, i.price * (i.qty : ℚ))]) hn2
      refine ⟨hn3, ?_⟩
      rw [hsum, sumVals_append, sumVals_cons, lineTotal_cons]
      simp [sumVals]
      ring

/-- A vendor id is a key of the payments-route grouping fold exactly
when it was already a key or appears among the consumed items. -/
theorem groupTotals_keys_mem :
    ∀ (items : List OrderItem) (acc : List (Nat × ℚ)) (v : Nat),
      v ∈ keysOf (items.foldl groupTotalsStep acc) ↔
        v ∈ keysOf acc ∨ v ∈ items.map OrderItem.vendorId
  | [], acc, v => by simp
  | i :: items, acc, v => by
    rw [List.foldl_cons]
    by_cases hmem : acc.any (fun g => decide (g.1 = i.vendorId)) = true
    · have hv : i.vendorId ∈ keysOf acc := by
        rw [List.any_eq_true] at hmem
        obtain ⟨g, hg, hgv⟩ := hmem
        simp only [decide_eq_true_eq] at hgv
        exact hgv ▸ List.mem_map.mpr ⟨g, hg, rfl⟩
      have hstep : groupTotalsStep acc i
          = acc.map (fun g =>
              if g.1 = i.vendorId then (g.1, g.2 + i.price * (i.qty : ℚ)) else g) := by
        unfold groupTotalsStep
        rw [if_pos hmem]
      rw [hstep, groupTotals_keys_mem items _ v,
        keysOf_map_update i.vendorId (i.price * (i.qty : ℚ)) acc]
      simp only [List.map_cons, List.mem_cons]
      constructor
      · rintro (h | h)
        · exact Or.inl h
        · exact Or.inr (Or.inr h)
      · rintro (h | h | h)
        · exact Or.inl h
        · exact Or.inl (h ▸ hv)
        · exact Or.inr h
    · have hstep : groupTotalsStep acc i
          = acc ++ [(i.vendorId, i.price * (i.qty : ℚ))] := by
        unfold groupTotalsStep
        rw [if_neg hmem]
      rw [hstep, groupTotals_keys_mem items _ v, keysOf_append]
      simp only [List.map_cons, List.mem_cons, List.mem_append, keysOf_cons]
      constructor
      · rintro ((h | h) | h)
        · exact Or.inl h
        · simp [keysOf] at h
          exact Or.inr (Or.inl h)
        · exact Or.inr (Or.inr h)
      · rintro (h | h | h)
        · exact Or.inl (Or.inl h)
        · exact Or.inl (Or.inr (by simp [keysOf, h]))
        · exact Or.inr h

/-- One grouping step of the payments route is the image, under
taking line totals, of one grouping step of the orders route. -/
theorem groupTotalsStep_map (acc : List (Nat × List OrderItem)) (i : OrderItem) :
    groupTotalsStep (acc.map (fun g => (g.1, lineTotal g.2))) i
      = (groupStep acc i).map (fun g => (g.1, lineTotal g.2)) := by
  unfold groupTotalsStep groupStep
  rw [anyMapPoly (fun g : Nat × List OrderItem => (g.1, lineTotal g.2))
    (fun g => decide (g.1 = i.vendorId)) acc]
  by_cases hmem : acc.any (fun g => decide (g.1 = i.vendorId)) = true
  · rw [if_pos hmem, if_pos hmem, List.map_map, List.map_map]
    congr 1
    funext g
    by_cases h : g.1 = i.vendorId
    · simp [Function.comp, h, lineTotal_append_one]
    · simp [Function.comp, h]
  · rw [if_neg hmem, if_neg hmem, List.map_append]
    simp [lineTotal]

/-- The payments-route grouping equals the orders-route grouping with
every group replaced by its line total. -/
theorem groupTotals_eq_groupBy :
    ∀ (items : List OrderItem) (acc : List (Nat × List OrderItem)),
      items.foldl groupTotalsStep (acc.map (fun g => (g.1, lineTotal g.2)))
        = (items.foldl groupStep acc).map (fun g => (g.1, lineTotal g.2))
  | [], acc => rfl
  | i :: items, acc => by
    rw [List.foldl_cons, List.foldl_cons, groupTotalsStep_map acc i]
    exact groupTotals_eq_groupBy items (groupStep acc i)

theorem sum_net_map {α : Type} (f : α → ℚ) :
    ∀ l : List α,
      (l.map (fun g => f g - f g * 1 / 100)).sum
        = (l.map f).sum - (l.map f).sum * 1 / 100
  | [] => by simp
  | a :: l => by
    simp only [List.map_cons, List.sum_cons, sum_net_map f l]
    ring

/-- Claim C3: the vendor payout computation groups lines by vendor
with gross the per-vendor sum of price times qty, commission one
percent of gross and net the difference, and the net amounts summed
over all vendor groups equal order.totalAmount minus
order.totalAmount times 0.01 — for the payouts attached by the
payments route and likewise for the per-vendor amounts written by the
orders-route processVendorPayouts. -/
theorem payout_net_amounts_sum (order : Order) (payoutBase : Nat)
    (h : order.totalAmount = lineTotal order.items) :
    ((computeVendorPayouts order.items).map VendorPayout.netAmount).sum
      = order.totalAmount - order.totalAmount * (1 / 100) ∧
    ((payoutDocsFor payoutBase order).map Payment.amount).sum
      = order.totalAmount - order.totalAmount * (1 / 100) := by
  have hsum : sumVals (groupTotalsByVendor order.items) = lineTotal order.items := by
    have hfold := groupTotals_foldl_sum order.items [] (by simp [keysOf])
    have h2 := hfold.2
    rw [show sumVals ([] : List (Nat × ℚ)) = 0 from rfl, zero_add] at h2
    exact h2
  constructor
  · unfold computeVendorPayouts
    rw [List.map_map]
    have hcomp : (VendorPayout.netAmount ∘ fun g : Nat × ℚ =>
        ({ vendorId := g.1, amount := g.2, commission := g.2 * 1 / 100,
           netAmount := g.2 - g.2 * 1 / 100, status := "pending" } : VendorPayout))
        = fun g : Nat × ℚ => Prod.snd g - Prod.snd g * 1 / 100 := rfl
    rw [hcomp, sum_net_map Prod.snd (groupTotalsByVendor order.items)]
    have hvals : ((groupTotalsByVendor order.items).map Prod.snd).sum
        = sumVals (groupTotalsByVendor order.items) := rfl
    rw [hvals, hsum, ← h]
    ring
  · unfold payoutDocsFor
    rw [List.map_map]
    have hcomp2 : (Payment.amount ∘ fun g : Nat × (Nat × List OrderItem) =>
        vendorPayoutDoc (payoutBase + g.1) order.id g.2.1 g.2.2)
        = (fun p : Nat × List OrderItem =>
            lineTotal p.2 - lineTotal p.2 * 1 / 100) ∘ Prod.snd := by
      funext g
      show (vendorPayoutDoc (payoutBase + g.1) order.id g.2.1 g.2.2).amount
        = lineTotal g.2.2 - lineTotal g.2.2 * 1 / 100
      show lineTotal g.2.2 - lineTotal g.2.2 * (1 / 100)
        = lineTotal g.2.2 - lineTotal g.2.2 * 1 / 100
      ring
    rw [hcomp2, ← List.map_map, List.enum_map_snd]
    have hrel : groupTotalsByVendor order.items
        = (groupByVendor order.items).map (fun g => (g.1, lineTotal g.2)) :=
      groupTotals_eq_groupBy order.items []
    have hmap : (groupByVendor order.items).map
        (fun p : Nat × List OrderItem => lineTotal p.2 - lineTotal p.2 * 1 / 100)
        = (groupTotalsByVendor order.items).map
          (fun g : Nat × ℚ => Prod.snd g - Prod.snd g * 1 / 100) := by
      rw [hrel, List.map_map]
      rfl
    rw [hmap, sum_net_map Prod.snd (groupTotalsByVendor order.items)]
    have hvals : ((groupTotalsByVendor order.items).map Prod.snd).sum
        = sumVals (groupTotalsByVendor order.items) := rfl
    rw [hvals, hsum, ← h]
    ring

/-- Witness for C3 at a concrete input: orderA with one line of
price 100 and qty 2; gross 200, commission 2, net 198 on both payout
paths. -/
theorem payout_net_amounts_sum_witness :
    orderA.totalAmount = lineTotal orderA.items ∧
    ((computeVendorPayouts orderA.items).map VendorPayout.netAmount).sum
      = orderA.totalAmount - orderA.totalAmount * (1 / 100) ∧
    ((payoutDocsFor 50 orderA).map Payment.amount).sum
      = orderA.totalAmount - orderA.totalAmount * (1 / 100) := by
  have h : orderA.totalAmount = lineTotal orderA.items := by
    simp [orderA, lineTotal]
    norm_num
  exact ⟨h, (payout_net_amounts_sum orderA 50 h).1,
    (payout_net_amounts_sum orderA 50 h).2⟩

/-- Claim C2 (counterexample): on the demo-checkout confirmation path
no payout entry is persisted at all: the per-vendor Payment documents
processVendorPayouts builds (status pending_payout, no userId or
razorpayOrderId) all fail schema validation, the error is swallowed,
and after a successful confirmation of an order with a vendor group
the payments collection is still empty — in particular no entry with
payout status pending is attached to any Payment record. -/
theorem orders_route_payout_entries_cex :
    (demoCheckout 2000 50 10 stCached sessU7).1
      = .ok "Demo payment successful! Order completed." ∧
    (demoCheckout 2000 50 10 stCached sessU7).2.1.db.payments
      = ([] : List Payment) ∧
    orderA.items.map OrderItem.vendorId = [21] := by
  refine ⟨rfl, rfl, rfl⟩

/-- A payment record in created state for orderA, gateway order id
o1. -/
def paymentRec : Payment :=
  { id := 400, orderId := 10, userId := some 7, vendorId := none
    razorpayOrderId := some "o1", razorpayPaymentId := none
    razorpaySignature := none, amount := 200, commission := none
    status := "created", type := none, vendorPayouts := [] }

/-- A state holding listingA, the pending orderA and paymentRec. -/
def stPay : St :=
  { db := { vendorProducts := [listingA], orders := [orderA],
            payments := [paymentRec], reviews := [], vendors := [] }
    caches := emptyCaches }

/-- Claim C2 (amended): on the payments-route verify path, the
confirmation attaches to the Payment record one vendorPayouts entry
per distinct vendor appearing in the order lines, each created with
payout status pending (given a payment record carrying the required
userId, as every record created by the payments route does); on the
orders-route confirmation path processVendorPayouts persists nothing:
each per-vendor payout document it attempts to save violates the
payment schema and the error is swallowed. -/
theorem payments_verify_payout_entries
    (env : Env) (rzpOrderId rzpPaymentId : String)
    (st : St) (payment : Payment) (order : Order)
    (hp : st.db.payments.find? (fun p => p.razorpayOrderId == some rzpOrderId)
      = some payment)
    (ho : st.db.orders.find? (fun o => decide (o.id = payment.orderId))
      = some order)
    (hu : payment.userId.isSome = true) :
    ((paymentsVerify env rzpOrderId rzpPaymentId
        (env.hmacSha256Hex env.razorpayKeySecret (rzpOrderId ++ "|" ++ rzpPaymentId))
        st).1
      = .ok "Payment verified successfully" ∧
     ∃ p1, p1 ∈ (paymentsVerify env rzpOrderId rzpPaymentId
        (env.hmacSha256Hex env.razorpayKeySecret (rzpOrderId ++ "|" ++ rzpPaymentId))
        st).2.db.payments ∧
      p1.vendorPayouts = computeVendorPayouts order.items ∧
      (∀ e ∈ p1.vendorPayouts, e.status = "pending") ∧
      (p1.vendorPayouts.map VendorPayout.vendorId).Nodup ∧
      (∀ v, v ∈ p1.vendorPayouts.map VendorPayout.vendorId ↔
        v ∈ order.items.map OrderItem.vendorId)) ∧
    ∀ (payoutBase : Nat) (order2 : Order) (db : DB),
      processVendorPayouts payoutBase order2 db = db := by
  refine ⟨?_, fun payoutBase order2 db => processVendorPayouts_noop payoutBase order2 db⟩
  have hsig : ¬ (env.hmacSha256Hex env.razorpayKeySecret (rzpOrderId ++ "|" ++ rzpPaymentId)
      ≠ env.hmacSha256Hex env.razorpayKeySecret (rzpOrderId ++ "|" ++ rzpPaymentId)) :=
    fun hne => hne rfl
  have hro : payment.razorpayOrderId = some rzpOrderId := by
    have := List.find?_some hp
    simpa using this
  have hkeys : (computeVendorPayouts order.items).map VendorPayout.vendorId
      = keysOf (groupTotalsByVendor order.items) := by
    unfold computeVendorPayouts keysOf
    rw [List.map_map]
    rfl
  have hvalid : paymentValid { payment with
      razorpayPaymentId := some rzpPaymentId
      razorpaySignature :=
        some (env.hmacSha256Hex env.razorpayKeySecret (rzpOrderId ++ "|" ++ rzpPaymentId))
      status := "paid"
      vendorPayouts := computeVendorPayouts order.items } = true := by
    simp [paymentValid, paymentStatusEnum, hu, hro]
  unfold paymentsVerify
  simp only [if_neg hsig, hp, ho]
  rw [if_pos hvalid]
  refine ⟨rfl, ?_⟩
  refine ⟨{ payment with
      razorpayPaymentId := some rzpPaymentId
      razorpaySignature :=
        some (env.hmacSha256Hex env.razorpayKeySecret (rzpOrderId ++ "|" ++ rzpPaymentId))
      status := "paid"
      vendorPayouts := computeVendorPayouts order.items }, ?_, rfl, ?_, ?_, ?_⟩
  · refine List.mem_map.mpr ⟨payment, List.mem_of_find?_eq_some hp, ?_⟩
    simp
  · intro e he
    obtain ⟨g, hg, hge⟩ := List.mem_map.mp he
    rw [← hge]
  · rw [hkeys]
    exact (groupTotals_foldl_sum order.items [] (by simp [keysOf])).1
  · intro v
    rw [hkeys]
    have := groupTotals_keys_mem order.items [] v
    simpa [keysOf] using this

/-- Witness for the amended C2 at a concrete input: verifying the
payment record for orderA attaches one pending payout entry for
vendor 21. -/
theorem payments_verify_payout_entries_witness :
    (stPay.db.payments.find? (fun p => p.razorpayOrderId == some "o1")
      = some paymentRec ∧
     stPay.db.orders.find? (fun o => decide (o.id = paymentRec.orderId))
      = some orderA ∧
     paymentRec.userId.isSome = true) ∧
    (((paymentsVerify sampleEnv "o1" "p1"
        (sampleEnv.hmacSha256Hex sampleEnv.razorpayKeySecret ("o1" ++ "|" ++ "p1"))
        stPay).1
      = .ok "Payment verified successfully" ∧
     ∃ p1, p1 ∈ (paymentsVerify sampleEnv "o1" "p1"
        (sampleEnv.hmacSha256Hex sampleEnv.razorpayKeySecret ("o1" ++ "|" ++ "p1"))
        stPay).2.db.payments ∧
      p1.vendorPayouts = computeVendorPayouts orderA.items ∧
      (∀ e ∈ p1.vendorPayouts, e.status = "pending") ∧
      (p1.vendorPayouts.map VendorPayout.vendorId).Nodup ∧
      (∀ v, v ∈ p1.vendorPayouts.map VendorPayout.vendorId ↔
        v ∈ orderA.items.map OrderItem.vendorId)) ∧
    ∀ (payoutBase : Nat) (order2 : Order) (db : DB),
      processVendorPayouts payoutBase order2 db = db) :=
  ⟨⟨rfl, rfl, rfl⟩,
   payments_verify_payout_entries sampleEnv "o1" "p1" stPay paymentRec orderA
     rfl rfl rfl⟩

end Riztoo
